import Mathlib

/-!
Shallow embedding of the VC-AD particle demo (two variants:
`sample.py`, vectorized over parallel arrays, and `sample_readable.py`,
per-particle objects).  Python floats are modelled as exact rationals;
the claims under study concern ordering, clamping and sign logic, which
the rational model captures faithfully.
-/

/-- 2-D vector, from `sample_readable.py` `Vector2`. -/
structure Vector2 where
  x : ℚ
  y : ℚ
deriving DecidableEq

/-- `Vector2.add` from the source. -/
def Vector2.add (v w : Vector2) : Vector2 := ⟨v.x + w.x, v.y + w.y⟩

/-- Bounds `(width, height)` from `sample_readable.py` `Bounds`. -/
structure Bounds where
  width : ℤ
  height : ℤ
deriving DecidableEq

/-- One axis of `Bounds.clamp_and_reflect`: the source applies the same
`if p < 0 ... elif p > size - 1 ... else ...` block to x and to y with the
axis's size; this helper is that block for one axis. -/
def reflectAxis (size : ℤ) (p v : ℚ) : ℚ × ℚ :=
  if p < 0 then (0, -v)
  else if (size : ℚ) - 1 < p then ((size : ℚ) - 1, -v)
  else (p, v)

/-- `Bounds.clamp_and_reflect` from `sample_readable.py`: the x block and the
y block of the source, each an instance of `reflectAxis`. -/
def Bounds.clamp_and_reflect (b : Bounds) (position velocity : Vector2) :
    Vector2 × Vector2 :=
  let xr := reflectAxis b.width position.x velocity.x
  let yr := reflectAxis b.height position.y velocity.y
  (⟨xr.1, yr.1⟩, ⟨xr.2, yr.2⟩)

/-- RGB colour, from `sample_readable.py` `Color`. -/
structure Color where
  r : ℕ
  g : ℕ
  b : ℕ
deriving DecidableEq

/-- Background colour: both variants clear to black `(0, 0, 0)`. -/
def black : Color := ⟨0, 0, 0⟩

/-- A particle, from `sample_readable.py` `Particle`. -/
structure Particle where
  position : Vector2
  velocity : Vector2
  color : Color
deriving DecidableEq

/-- `Particle.step` from the source: integrate, then clamp-and-reflect. -/
def Particle.step (p : Particle) (bounds : Bounds) : Particle :=
  let next_pos := p.position.add p.velocity
  let r := bounds.clamp_and_reflect next_pos p.velocity
  ⟨r.1, r.2, p.color⟩

/-- `ParticleSystem` from `sample_readable.py`: a particle list plus bounds. -/
structure ParticleSystem where
  particles : List Particle
  bounds : Bounds
deriving DecidableEq

/-- `ParticleSystem.update` from the source: step every particle. -/
def ParticleSystem.update (s : ParticleSystem) : ParticleSystem :=
  ⟨s.particles.map (fun p => p.step s.bounds), s.bounds⟩

/-- Truncation toward zero, the semantics of Python `int(...)` and of numpy
`.astype(np.int32)` on the magnitudes in play.  For a rational `num/den`
with `den > 0`, Lean's `Int` division rounds toward zero. -/
def truncTowardZero (q : ℚ) : ℤ := q.num.tdiv (q.den : ℤ)

/-! ### Helper lemmas about one axis of the reflection step -/

lemma reflectAxis_of_lt (s : ℤ) (p v : ℚ) (h : p < 0) :
    reflectAxis s p v = (0, -v) := by
  simp [reflectAxis, h]

lemma reflectAxis_of_gt (s : ℤ) (p v : ℚ) (h0 : ¬ p < 0) (h1 : (s : ℚ) - 1 < p) :
    reflectAxis s p v = ((s : ℚ) - 1, -v) := by
  simp [reflectAxis, h0, h1]

lemma reflectAxis_of_mem (s : ℤ) (p v : ℚ) (h0 : 0 ≤ p) (h1 : p ≤ (s : ℚ) - 1) :
    reflectAxis s p v = (p, v) := by
  have h0' : ¬ p < 0 := not_lt.mpr h0
  have h1' : ¬ (s : ℚ) - 1 < p := not_lt.mpr h1
  simp [reflectAxis, h0', h1']

lemma reflectAxis_fst_range (s : ℤ) (p v : ℚ) (hs : 1 ≤ s) :
    0 ≤ (reflectAxis s p v).1 ∧ (reflectAxis s p v).1 ≤ (s : ℚ) - 1 := by
  have hs' : (1 : ℚ) ≤ (s : ℚ) := by exact_mod_cast hs
  unfold reflectAxis
  split_ifs with h1 h2 <;> constructor <;> simp <;> linarith

lemma reflectAxis_snd_abs (s : ℤ) (p v : ℚ) :
    |(reflectAxis s p v).2| = |v| := by
  unfold reflectAxis
  split_ifs <;> simp

lemma reflectAxis_idem (s : ℤ) (p v : ℚ) (hs : 1 ≤ s) :
    reflectAxis s (reflectAxis s p v).1 (reflectAxis s p v).2 = reflectAxis s p v := by
  have h := reflectAxis_fst_range s p v hs
  rw [reflectAxis_of_mem _ _ _ h.1 h.2]

/-! ### Unfolding lemmas for `Particle.step` -/

lemma step_position_x (p : Particle) (b : Bounds) :
    (p.step b).position.x = (reflectAxis b.width (p.position.x + p.velocity.x) p.velocity.x).1 := rfl

lemma step_position_y (p : Particle) (b : Bounds) :
    (p.step b).position.y = (reflectAxis b.height (p.position.y + p.velocity.y) p.velocity.y).1 := rfl

lemma step_velocity_x (p : Particle) (b : Bounds) :
    (p.step b).velocity.x = (reflectAxis b.width (p.position.x + p.velocity.x) p.velocity.x).2 := rfl

lemma step_velocity_y (p : Particle) (b : Bounds) :
    (p.step b).velocity.y = (reflectAxis b.height (p.position.y + p.velocity.y) p.velocity.y).2 := rfl

lemma step_color (p : Particle) (b : Bounds) : (p.step b).color = p.color := rfl

/-- C2: for every particle and each axis independently, the reflector applies
exactly the three-way rule: a negative position is clamped to `0` with the
axis velocity negated; a position beyond `axisSize - 1` is clamped to
`axisSize - 1` with the axis velocity negated; otherwise position and
velocity on that axis are unchanged — in particular a position exactly at
`0` or at `axisSize - 1` triggers no change on that axis. -/
theorem C2_reflection_rule (b : Bounds) (pos vel : Vector2)
    (hw : 1 ≤ b.width) (hh : 1 ≤ b.height) :
    (pos.x < 0 →
      (b.clamp_and_reflect pos vel).1.x = 0 ∧
      (b.clamp_and_reflect pos vel).2.x = -vel.x) ∧
    (¬ pos.x < 0 → (b.width : ℚ) - 1 < pos.x →
      (b.clamp_and_reflect pos vel).1.x = (b.width : ℚ) - 1 ∧
      (b.clamp_and_reflect pos vel).2.x = -vel.x) ∧
    (0 ≤ pos.x → pos.x ≤ (b.width : ℚ) - 1 →
      (b.clamp_and_reflect pos vel).1.x = pos.x ∧
      (b.clamp_and_reflect pos vel).2.x = vel.x) ∧
    ((pos.x = 0 ∨ pos.x = (b.width : ℚ) - 1) →
      (b.clamp_and_reflect pos vel).1.x = pos.x ∧
      (b.clamp_and_reflect pos vel).2.x = vel.x) ∧
    (pos.y < 0 →
      (b.clamp_and_reflect pos vel).1.y = 0 ∧
      (b.clamp_and_reflect pos vel).2.y = -vel.y) ∧
    (¬ pos.y < 0 → (b.height : ℚ) - 1 < pos.y →
      (b.clamp_and_reflect pos vel).1.y = (b.height : ℚ) - 1 ∧
      (b.clamp_and_reflect pos vel).2.y = -vel.y) ∧
    (0 ≤ pos.y → pos.y ≤ (b.height : ℚ) - 1 →
      (b.clamp_and_reflect pos vel).1.y = pos.y ∧
      (b.clamp_and_reflect pos vel).2.y = vel.y) ∧
    ((pos.y = 0 ∨ pos.y = (b.height : ℚ) - 1) →
      (b.clamp_and_reflect pos vel).1.y = pos.y ∧
      (b.clamp_and_reflect pos vel).2.y = vel.y) := by
  have hw' : (1 : ℚ) ≤ (b.width : ℚ) := by exact_mod_cast hw
  have hh' : (1 : ℚ) ≤ (b.height : ℚ) := by exact_mod_cast hh
  have hx1 : (b.clamp_and_reflect pos vel).1.x = (reflectAxis b.width pos.x vel.x).1 := rfl
  have hx2 : (b.clamp_and_reflect pos vel).2.x = (reflectAxis b.width pos.x vel.x).2 := rfl
  have hy1 : (b.clamp_and_reflect pos vel).1.y = (reflectAxis b.height pos.y vel.y).1 := rfl
  have hy2 : (b.clamp_and_reflect pos vel).2.y = (reflectAxis b.height pos.y vel.y).2 := rfl
  refine ⟨fun h => ?_, fun h0 h1 => ?_, fun h0 h1 => ?_, fun h => ?_,
    fun h => ?_, fun h0 h1 => ?_, fun h0 h1 => ?_, fun h => ?_⟩
  · rw [hx1, hx2, reflectAxis_of_lt _ _ _ h]; exact ⟨rfl, rfl⟩
  · rw [hx1, hx2, reflectAxis_of_gt _ _ _ h0 h1]; exact ⟨rfl, rfl⟩
  · rw [hx1, hx2, reflectAxis_of_mem _ _ _ h0 h1]; exact ⟨rfl, rfl⟩
  · rcases h with h | h <;>
      rw [hx1, hx2,
        reflectAxis_of_mem _ _ _ (by rw [h]; try linarith) (by rw [h]; try linarith)] <;>
      exact ⟨rfl, rfl⟩
  · rw [hy1, hy2, reflectAxis_of_lt _ _ _ h]; exact ⟨rfl, rfl⟩
  · rw [hy1, hy2, reflectAxis_of_gt _ _ _ h0 h1]; exact ⟨rfl, rfl⟩
  · rw [hy1, hy2, reflectAxis_of_mem _ _ _ h0 h1]; exact ⟨rfl, rfl⟩
  · rcases h with h | h <;>
      rw [hy1, hy2,
        reflectAxis_of_mem _ _ _ (by rw [h]; try linarith) (by rw [h]; try linarith)] <;>
      exact ⟨rfl, rfl⟩

/-- Witness for C2 at bounds `(960, 540)`, position `(-1, 500)`,
velocity `(-2, 3)`. -/
theorem C2_reflection_rule_witness :
    ((-1 : ℚ) < 0 →
      ((Bounds.mk 960 540).clamp_and_reflect ⟨-1, 500⟩ ⟨-2, 3⟩).1.x = 0 ∧
      ((Bounds.mk 960 540).clamp_and_reflect ⟨-1, 500⟩ ⟨-2, 3⟩).2.x = -(-2 : ℚ)) ∧
    (¬ (-1 : ℚ) < 0 → ((960 : ℤ) : ℚ) - 1 < -1 →
      ((Bounds.mk 960 540).clamp_and_reflect ⟨-1, 500⟩ ⟨-2, 3⟩).1.x = ((960 : ℤ) : ℚ) - 1 ∧
      ((Bounds.mk 960 540).clamp_and_reflect ⟨-1, 500⟩ ⟨-2, 3⟩).2.x = -(-2 : ℚ)) ∧
    ((0 : ℚ) ≤ -1 → (-1 : ℚ) ≤ ((960 : ℤ) : ℚ) - 1 →
      ((Bounds.mk 960 540).clamp_and_reflect ⟨-1, 500⟩ ⟨-2, 3⟩).1.x = -1 ∧
      ((Bounds.mk 960 540).clamp_and_reflect ⟨-1, 500⟩ ⟨-2, 3⟩).2.x = (-2 : ℚ)) ∧
    (((-1 : ℚ) = 0 ∨ (-1 : ℚ) = ((960 : ℤ) : ℚ) - 1) →
      ((Bounds.mk 960 540).clamp_and_reflect ⟨-1, 500⟩ ⟨-2, 3⟩).1.x = -1 ∧
      ((Bounds.mk 960 540).clamp_and_reflect ⟨-1, 500⟩ ⟨-2, 3⟩).2.x = (-2 : ℚ)) ∧
    ((500 : ℚ) < 0 →
      ((Bounds.mk 960 540).clamp_and_reflect ⟨-1, 500⟩ ⟨-2, 3⟩).1.y = 0 ∧
      ((Bounds.mk 960 540).clamp_and_reflect ⟨-1, 500⟩ ⟨-2, 3⟩).2.y = -(3 : ℚ)) ∧
    (¬ (500 : ℚ) < 0 → ((540 : ℤ) : ℚ) - 1 < 500 →
      ((Bounds.mk 960 540).clamp_and_reflect ⟨-1, 500⟩ ⟨-2, 3⟩).1.y = ((540 : ℤ) : ℚ) - 1 ∧
      ((Bounds.mk 960 540).clamp_and_reflect ⟨-1, 500⟩ ⟨-2, 3⟩).2.y = -(3 : ℚ)) ∧
    ((0 : ℚ) ≤ 500 → (500 : ℚ) ≤ ((540 : ℤ) : ℚ) - 1 →
      ((Bounds.mk 960 540).clamp_and_reflect ⟨-1, 500⟩ ⟨-2, 3⟩).1.y = 500 ∧
      ((Bounds.mk 960 540).clamp_and_reflect ⟨-1, 500⟩ ⟨-2, 3⟩).2.y = (3 : ℚ)) ∧
    (((500 : ℚ) = 0 ∨ (500 : ℚ) = ((540 : ℤ) : ℚ) - 1) →
      ((Bounds.mk 960 540).clamp_and_reflect ⟨-1, 500⟩ ⟨-2, 3⟩).1.y = 500 ∧
      ((Bounds.mk 960 540).clamp_and_reflect ⟨-1, 500⟩ ⟨-2, 3⟩).2.y = (3 : ℚ)) :=
  C2_reflection_rule (Bounds.mk 960 540) ⟨-1, 500⟩ ⟨-2, 3⟩ (by decide) (by decide)

/-- C9: the boundary reflector is idempotent — applying
`clamp_and_reflect` to its own output changes neither the position nor the
velocity it produced. -/
theorem C9_reflect_idempotent (b : Bounds) (pos vel : Vector2)
    (hw : 1 ≤ b.width) (hh : 1 ≤ b.height) :
    b.clamp_and_reflect (b.clamp_and_reflect pos vel).1 (b.clamp_and_reflect pos vel).2 =
      b.clamp_and_reflect pos vel := by
  simp only [Bounds.clamp_and_reflect]
  rw [reflectAxis_idem _ _ _ hw, reflectAxis_idem _ _ _ hh]

/-- Witness for C9 at bounds `(960, 540)`, position `(-1, 600)`,
velocity `(-2, 3)`. -/
theorem C9_reflect_idempotent_witness :
    (Bounds.mk 960 540).clamp_and_reflect
        ((Bounds.mk 960 540).clamp_and_reflect ⟨-1, 600⟩ ⟨-2, 3⟩).1
        ((Bounds.mk 960 540).clamp_and_reflect ⟨-1, 600⟩ ⟨-2, 3⟩).2 =
      (Bounds.mk 960 540).clamp_and_reflect ⟨-1, 600⟩ ⟨-2, 3⟩ :=
  C9_reflect_idempotent (Bounds.mk 960 540) ⟨-1, 600⟩ ⟨-2, 3⟩ (by decide) (by decide)

lemma update_iterate_bounds (s : ParticleSystem) (n : ℕ) :
    (ParticleSystem.update^[n] s).bounds = s.bounds := by
  induction n with
  | zero => rfl
  | succ m ih => rw [Function.iterate_succ_apply']; exact ih

/-- C1: once the per-frame pipeline (integrate, then reflect) has run at
least once over the population, every particle's position lies in the
inclusive range `[0, width-1] × [0, height-1]`, and it does so again at the
start of every subsequent frame. -/
theorem C1_frame_invariant (s : ParticleSystem) (n : ℕ)
    (hw : 1 ≤ s.bounds.width) (hh : 1 ≤ s.bounds.height) (hn : 1 ≤ n) :
    ∀ p ∈ (ParticleSystem.update^[n] s).particles,
      0 ≤ p.position.x ∧ p.position.x ≤ (s.bounds.width : ℚ) - 1 ∧
      0 ≤ p.position.y ∧ p.position.y ≤ (s.bounds.height : ℚ) - 1 := by
  obtain ⟨m, rfl⟩ : ∃ m, n = m + 1 := ⟨n - 1, by omega⟩
  intro p hp
  rw [Function.iterate_succ_apply'] at hp
  have hb : (ParticleSystem.update^[m] s).bounds = s.bounds := update_iterate_bounds s m
  simp only [ParticleSystem.update, List.mem_map] at hp
  obtain ⟨q, _, rfl⟩ := hp
  rw [step_position_x, step_position_y, hb]
  have hx := reflectAxis_fst_range s.bounds.width (q.position.x + q.velocity.x) q.velocity.x hw
  have hy := reflectAxis_fst_range s.bounds.height (q.position.y + q.velocity.y) q.velocity.y hh
  exact ⟨hx.1, hx.2, hy.1, hy.2⟩

/-- Witness for C1: a one-particle population in bounds `(10, 10)` after
one frame. -/
theorem C1_frame_invariant_witness :
    0 ≤ (Particle.mk ⟨6, 6⟩ ⟨1, 1⟩ ⟨255, 0, 0⟩).position.x ∧
    (Particle.mk ⟨6, 6⟩ ⟨1, 1⟩ ⟨255, 0, 0⟩).position.x ≤
      ((ParticleSystem.mk [⟨⟨5, 5⟩, ⟨1, 1⟩, ⟨255, 0, 0⟩⟩] ⟨10, 10⟩).bounds.width : ℚ) - 1 ∧
    0 ≤ (Particle.mk ⟨6, 6⟩ ⟨1, 1⟩ ⟨255, 0, 0⟩).position.y ∧
    (Particle.mk ⟨6, 6⟩ ⟨1, 1⟩ ⟨255, 0, 0⟩).position.y ≤
      ((ParticleSystem.mk [⟨⟨5, 5⟩, ⟨1, 1⟩, ⟨255, 0, 0⟩⟩] ⟨10, 10⟩).bounds.height : ℚ) - 1 :=
  C1_frame_invariant (ParticleSystem.mk [⟨⟨5, 5⟩, ⟨1, 1⟩, ⟨255, 0, 0⟩⟩] ⟨10, 10⟩) 1
    (by decide) (by decide) (by decide)
    (Particle.mk ⟨6, 6⟩ ⟨1, 1⟩ ⟨255, 0, 0⟩) (by with_unfolding_all decide)

/-- C7: any number of frames leaves every particle's colour bit-identical
and the population size unchanged. -/
theorem C7_colors_and_count_invariant (s : ParticleSystem) (n : ℕ) :
    (ParticleSystem.update^[n] s).particles.map Particle.color =
      s.particles.map Particle.color ∧
    (ParticleSystem.update^[n] s).particles.length = s.particles.length := by
  induction n with
  | zero => exact ⟨rfl, rfl⟩
  | succ m ih =>
    rw [Function.iterate_succ_apply']
    simp only [ParticleSystem.update, List.map_map, List.length_map]
    refine ⟨?_, ih.2⟩
    rw [show (Particle.color ∘ fun p =>
      p.step (ParticleSystem.update^[m] s).bounds) = Particle.color from rfl]
    exact ih.1

/-- C10: one frame step preserves per-axis speed — the reflector at most
negates a velocity component, so the absolute value of each velocity
component is unchanged by `Particle.step`. -/
theorem C10_speed_preserved (b : Bounds) (p : Particle) :
    |(p.step b).velocity.x| = |p.velocity.x| ∧
    |(p.step b).velocity.y| = |p.velocity.y| :=
  ⟨by rw [step_velocity_x]; exact reflectAxis_snd_abs _ _ _,
   by rw [step_velocity_y]; exact reflectAxis_snd_abs _ _ _⟩

/-! ### Rasterizer, readable variant (`PygameRenderer.clear`/`draw`)

The pixel buffer is modelled as a total function from coordinates to
colours; a real surface only ever reads it on `[0, w) × [0, h)`. -/

/-- One `Surface.set_at` write, as `sample_readable.py` performs it.
pygame documents `set_at` to have no effect for a position outside the
surface area, which is the clause modelled by the outer guard. -/
def setAt (w h : ℤ) (buf : ℤ → ℤ → Color) (x y : ℤ) (c : Color) :
    ℤ → ℤ → Color :=
  if 0 ≤ x ∧ x < w ∧ 0 ≤ y ∧ y < h then
    fun a bb => if a = x ∧ bb = y then c else buf a bb
  else buf

/-- The truncated pixel coordinate a particle is drawn at:
`(int(p.position.x), int(p.position.y))`. -/
def pixelOf (p : Particle) : ℤ × ℤ :=
  (truncTowardZero p.position.x, truncTowardZero p.position.y)

/-- One frame of `PygameRenderer` from `sample_readable.py`: `clear` fills
the buffer with black, then `draw` writes each particle's colour at its
truncated position, in list (index) order. -/
def render (w h : ℤ) (ps : List Particle) : ℤ → ℤ → Color :=
  ps.foldl
    (fun buf p => setAt w h buf (pixelOf p).1 (pixelOf p).2 p.color)
    (fun _ _ => black)

/-- Does particle `p` truncate to pixel `(cx, cy)`? -/
def pixelHit (cx cy : ℤ) (p : Particle) : Bool :=
  (pixelOf p).1 == cx && (pixelOf p).2 == cy

lemma setAt_same (w h : ℤ) (buf : ℤ → ℤ → Color) (x y : ℤ) (c : Color)
    (hx : 0 ≤ x) (hx2 : x < w) (hy : 0 ≤ y) (hy2 : y < h) :
    setAt w h buf x y c x y = c := by
  simp [setAt, hx, hx2, hy, hy2]

lemma setAt_other (w h : ℤ) (buf : ℤ → ℤ → Color) (x y : ℤ) (c : Color)
    (a bb : ℤ) (hne : ¬ (a = x ∧ bb = y)) :
    setAt w h buf x y c a bb = buf a bb := by
  simp only [setAt]
  split_ifs with h1
  · simp [hne]
  · rfl

lemma setAt_out (w h : ℤ) (buf : ℤ → ℤ → Color) (x y : ℤ) (c : Color)
    (hout : ¬ (0 ≤ x ∧ x < w ∧ 0 ≤ y ∧ y < h)) :
    setAt w h buf x y c = buf := by
  simp [setAt, hout]

lemma render_append (w h : ℤ) (ps : List Particle) (p : Particle) :
    render w h (ps ++ [p]) =
      setAt w h (render w h ps) (pixelOf p).1 (pixelOf p).2 p.color := by
  simp [render, List.foldl_append]

/-- C4: a render first clears every entry to black, then writes particles
in index order at their truncated positions, so an in-range coordinate
shows the colour of the last (highest-index) particle truncating to it,
and black if no particle does. -/
theorem C4_last_write_wins (w h : ℤ) (ps : List Particle) (cx cy : ℤ)
    (hx0 : 0 ≤ cx) (hx1 : cx ≤ w - 1) (hy0 : 0 ≤ cy) (hy1 : cy ≤ h - 1) :
    render w h ps cx cy =
      (match ps.reverse.find? (pixelHit cx cy) with
       | some p => p.color
       | none => black) := by
  induction ps using List.reverseRecOn with
  | nil => rfl
  | append_singleton qs q ih =>
    rw [render_append, List.reverse_append, List.reverse_singleton,
      List.singleton_append]
    by_cases hq : pixelHit cx cy q = true
    · rw [List.find?_cons_of_pos _ hq]
      have hx : (pixelOf q).1 = cx := by
        have := hq
        simp only [pixelHit, Bool.and_eq_true, beq_iff_eq] at this
        exact this.1
      have hy : (pixelOf q).2 = cy := by
        have := hq
        simp only [pixelHit, Bool.and_eq_true, beq_iff_eq] at this
        exact this.2
      rw [hx, hy]
      exact setAt_same w h _ cx cy q.color hx0 (by omega) hy0 (by omega)
    · rw [List.find?_cons_of_neg _ hq]
      have hne : ¬ (cx = (pixelOf q).1 ∧ cy = (pixelOf q).2) := by
        intro hcc
        apply hq
        simp only [pixelHit, Bool.and_eq_true, beq_iff_eq]
        exact ⟨hcc.1.symm, hcc.2.symm⟩
      rw [setAt_other w h _ _ _ _ _ _ hne]
      exact ih

/-- Witness for C4: two particles truncating to pixel `(2, 2)` in a
`10 × 10` buffer; the second (higher-index, green) one wins. -/
theorem C4_last_write_wins_witness :
    render 10 10 [⟨⟨5/2, 11/5⟩, ⟨0, 0⟩, ⟨255, 0, 0⟩⟩,
        ⟨⟨29/10, 2⟩, ⟨0, 0⟩, ⟨0, 255, 0⟩⟩] 2 2 =
      (match ([(⟨⟨5/2, 11/5⟩, ⟨0, 0⟩, ⟨255, 0, 0⟩⟩ : Particle),
          ⟨⟨29/10, 2⟩, ⟨0, 0⟩, ⟨0, 255, 0⟩⟩] : List Particle).reverse.find?
            (pixelHit 2 2) with
       | some p => p.color
       | none => black) :=
  C4_last_write_wins 10 10
    [⟨⟨5/2, 11/5⟩, ⟨0, 0⟩, ⟨255, 0, 0⟩⟩, ⟨⟨29/10, 2⟩, ⟨0, 0⟩, ⟨0, 255, 0⟩⟩]
    2 2 (by decide) (by decide) (by decide) (by decide)

/-! ### Rasterizer, vectorized variant (`sample.py` draw block)

`arr[xi, yi] = COLOR` is numpy fancy-indexing assignment: element-wise in
index order with last write winning, a negative index `i` with
`-n ≤ i < 0` addressing row/column `i + n`, and an index outside
`[-n, n)` raising `IndexError` (modelled as `none`). -/

/-- numpy integer index resolution for an axis of length `n`. -/
def npIndex (n i : ℤ) : Option ℤ :=
  if 0 ≤ i ∧ i < n then some i
  else if -n ≤ i ∧ i < 0 then some (i + n)
  else none

/-- The draw block of `sample.py`: `arr[:] = 0`, then
`arr[xi, yi] = COLOR` with `xi`, `yi` the truncated positions. -/
def npRender (w h : ℤ) (ps : List Particle) : Option (ℤ → ℤ → Color) :=
  ps.foldl
    (fun acc p => acc.bind fun buf =>
      (npIndex w (pixelOf p).1).bind fun xi =>
        (npIndex h (pixelOf p).2).map fun yi =>
          fun a bb => if a = xi ∧ bb = yi then p.color else buf a bb)
    (some fun _ _ => black)

/-- Counterexample to C5 as stated: in the vectorized variant, a particle
whose truncated x coordinate is `-1` (outside `[0, 3]` for width `4`) is
not a no-op — numpy wraps the index and the write lands at `x = 3`,
leaving the buffer different from the all-black buffer the claim
requires. -/
theorem C5_counterexample :
    ((npRender 4 4 [⟨⟨-3/2, 1⟩, ⟨0, 0⟩, ⟨255, 0, 0⟩⟩]).map
        (fun buf => buf 3 1)) = some ⟨255, 0, 0⟩ ∧
      (Color.mk 255 0 0) ≠ black := by
  constructor
  · with_unfolding_all decide
  · decide

/-- C5 as amended: in the readable variant's renderer (pygame `set_at`),
a particle whose truncated pixel coordinate is out of range produces no
write at all — rendering with that particle present equals rendering with
it removed, so the buffer is untouched by it and nothing is written
outside the valid range. -/
theorem C5_out_of_range_noop (w h : ℤ) (p : Particle)
    (hout : ¬ (0 ≤ (pixelOf p).1 ∧ (pixelOf p).1 < w ∧
      0 ≤ (pixelOf p).2 ∧ (pixelOf p).2 < h)) :
    ∀ ps1 ps2 : List Particle,
      render w h (ps1 ++ p :: ps2) = render w h (ps1 ++ ps2) := by
  intro ps1 ps2
  unfold render
  rw [List.foldl_append, List.foldl_append, List.foldl_cons,
    setAt_out w h _ _ _ _ hout]

/-- Witness for C5 as amended: the particle at `(-3/2, 1)` is invisible to
the readable renderer on a `4 × 4` buffer. -/
theorem C5_out_of_range_noop_witness :
    render 4 4 ([] ++ (⟨⟨-3/2, 1⟩, ⟨0, 0⟩, ⟨255, 0, 0⟩⟩ : Particle) ::
        [⟨⟨1, 1⟩, ⟨0, 0⟩, ⟨0, 255, 0⟩⟩]) =
      render 4 4 ([] ++ [⟨⟨1, 1⟩, ⟨0, 0⟩, ⟨0, 255, 0⟩⟩]) :=
  C5_out_of_range_noop 4 4 ⟨⟨-3/2, 1⟩, ⟨0, 0⟩, ⟨255, 0, 0⟩⟩
    (by with_unfolding_all decide) [] [⟨⟨1, 1⟩, ⟨0, 0⟩, ⟨0, 255, 0⟩⟩]

/-! ### Construction (`random_particle` / `build_system`) -/

/-- The RNG outcomes one `random_particle` call consumes: four
`random.random()` draws (uniform in `[0, 1)`) and three `randrange(256)`
colour draws. -/
structure RandomDraw where
  r1 : ℚ
  r2 : ℚ
  r3 : ℚ
  r4 : ℚ
  c1 : ℕ
  c2 : ℕ
  c3 : ℕ
deriving DecidableEq

/-- `random_particle` from `sample_readable.py`, the RNG draws passed
explicitly: position `(r1*width, r2*height)`, velocity
`((r3-0.5)*4.2, (r4-0.5)*4.2)` (with `0.5 = 1/2`, `4.2 = 21/5`), colour
channels from the `randrange(256)` draws. -/
def random_particle (bounds : Bounds) (d : RandomDraw) : Particle :=
  ⟨⟨d.r1 * bounds.width, d.r2 * bounds.height⟩,
   ⟨(d.r3 - 1/2) * (21/5), (d.r4 - 1/2) * (21/5)⟩,
   ⟨d.c1, d.c2, d.c3⟩⟩

/-- `build_system` from `sample_readable.py`: one particle per element of
`range(count)` (empty when `count < 0`, as in Python), paired with the
bounds.  The function performs no validation of its inputs. -/
def build_system (count : ℤ) (bounds : Bounds) (draws : ℕ → RandomDraw) :
    ParticleSystem :=
  ⟨(List.range count.toNat).map (fun i => random_particle bounds (draws i)), bounds⟩

/-- Counterexample to C3 as stated: with valid draw `r1 = 2399/2400` and
width `960`, the constructed position `x = 959.6` exceeds `width - 1`. -/
theorem C3_counterexample :
    ((0 : ℚ) ≤ 2399/2400 ∧ (2399/2400 : ℚ) < 1) ∧
      ((960 : ℤ) : ℚ) - 1 <
        (random_particle ⟨960, 540⟩ ⟨2399/2400, 0, 0, 0, 0, 0, 0⟩).position.x := by
  constructor
  · constructor <;> with_unfolding_all decide
  · with_unfolding_all decide

/-- C3 as amended: construction places every particle with
`0 ≤ position_x < width` and `0 ≤ position_y < height` (the half-open
range of `random() * size`, not the inclusive range up to `size - 1`),
and velocities with `|velocity| ≤ 2.1` per axis. -/
theorem C3_construction_ranges (b : Bounds) (d : RandomDraw)
    (hw : 1 ≤ b.width) (hh : 1 ≤ b.height)
    (h1 : 0 ≤ d.r1) (h1' : d.r1 < 1) (h2 : 0 ≤ d.r2) (h2' : d.r2 < 1)
    (h3 : 0 ≤ d.r3) (h3' : d.r3 < 1) (h4 : 0 ≤ d.r4) (h4' : d.r4 < 1) :
    0 ≤ (random_particle b d).position.x ∧
    (random_particle b d).position.x < (b.width : ℚ) ∧
    0 ≤ (random_particle b d).position.y ∧
    (random_particle b d).position.y < (b.height : ℚ) ∧
    |(random_particle b d).velocity.x| ≤ 21/10 ∧
    |(random_particle b d).velocity.y| ≤ 21/10 := by
  have hw' : (1 : ℚ) ≤ (b.width : ℚ) := by exact_mod_cast hw
  have hh' : (1 : ℚ) ≤ (b.height : ℚ) := by exact_mod_cast hh
  have hwpos : (0 : ℚ) < (b.width : ℚ) := by linarith
  have hhpos : (0 : ℚ) < (b.height : ℚ) := by linarith
  refine ⟨mul_nonneg h1 hwpos.le, ?_, mul_nonneg h2 hhpos.le, ?_, ?_, ?_⟩
  · have := mul_lt_mul_of_pos_right h1' hwpos
    simpa using this
  · have := mul_lt_mul_of_pos_right h2' hhpos
    simpa using this
  · rw [show (random_particle b d).velocity.x = (d.r3 - 1/2) * (21/5) from rfl, abs_le]
    constructor <;> nlinarith
  · rw [show (random_particle b d).velocity.y = (d.r4 - 1/2) * (21/5) from rfl, abs_le]
    constructor <;> nlinarith

/-- Witness for C3 as amended: bounds `(960, 540)` and the draw with all
four uniform draws equal to `1/2`. -/
theorem C3_construction_ranges_witness :
    0 ≤ (random_particle ⟨960, 540⟩ ⟨1/2, 1/2, 1/2, 1/2, 0, 0, 0⟩).position.x ∧
    (random_particle ⟨960, 540⟩ ⟨1/2, 1/2, 1/2, 1/2, 0, 0, 0⟩).position.x <
      ((960 : ℤ) : ℚ) ∧
    0 ≤ (random_particle ⟨960, 540⟩ ⟨1/2, 1/2, 1/2, 1/2, 0, 0, 0⟩).position.y ∧
    (random_particle ⟨960, 540⟩ ⟨1/2, 1/2, 1/2, 1/2, 0, 0, 0⟩).position.y <
      ((540 : ℤ) : ℚ) ∧
    |(random_particle ⟨960, 540⟩ ⟨1/2, 1/2, 1/2, 1/2, 0, 0, 0⟩).velocity.x| ≤ 21/10 ∧
    |(random_particle ⟨960, 540⟩ ⟨1/2, 1/2, 1/2, 1/2, 0, 0, 0⟩).velocity.y| ≤ 21/10 :=
  C3_construction_ranges ⟨960, 540⟩ ⟨1/2, 1/2, 1/2, 1/2, 0, 0, 0⟩
    (by decide) (by decide)
    (by with_unfolding_all decide) (by with_unfolding_all decide)
    (by with_unfolding_all decide) (by with_unfolding_all decide)
    (by with_unfolding_all decide) (by with_unfolding_all decide)
    (by with_unfolding_all decide) (by with_unfolding_all decide)

/-- Counterexample to C6 as stated: with `count = -1` and bounds `(0, 0)`
— all three inputs invalid — construction does not fail: it returns a
normal (empty) population carrying the invalid bounds. -/
theorem C6_counterexample :
    build_system (-1) ⟨0, 0⟩ (fun _ => ⟨0, 0, 0, 0, 0, 0, 0⟩) =
      ParticleSystem.mk [] ⟨0, 0⟩ := rfl

/-- C6 as amended: construction performs no input validation and has no
error path — it is total, any `count < 0` silently yields an empty
population, and out-of-range bounds are stored unchanged. -/
theorem C6_no_validation (count : ℤ) (b : Bounds) (draws : ℕ → RandomDraw)
    (hc : count < 0) :
    build_system count b draws = ParticleSystem.mk [] b := by
  unfold build_system
  rw [show count.toNat = 0 from Int.toNat_of_nonpos hc.le]
  rfl

/-- Witness for C6 as amended at `count = -1`, bounds `(0, 0)`. -/
theorem C6_no_validation_witness :
    build_system (-1) ⟨0, 0⟩ (fun _ => ⟨0, 0, 0, 0, 0, 0, 0⟩) =
      ParticleSystem.mk [] ⟨0, 0⟩ :=
  C6_no_validation (-1) ⟨0, 0⟩ (fun _ => ⟨0, 0, 0, 0, 0, 0, 0⟩) (by decide)

/-! ### Vectorized variant (`sample.py` update block) and its equivalence
with the per-particle variant -/

/-- One frame of the vectorized update from `sample.py`, over parallel
position/velocity columns: `P += V`; masks `P < 0` and `P > size - 1`;
negate the masked velocities; `np.clip(P, 0, size - 1)` (which is
`min (max p 0) (size - 1)` elementwise). -/
def vecFrame (b : Bounds) (px py vx vy : List ℚ) :
    List ℚ × List ℚ × List ℚ × List ℚ :=
  let npx := List.zipWith (· + ·) px vx
  let npy := List.zipWith (· + ·) py vy
  let nvx := List.zipWith
    (fun p v => if p < 0 ∨ (b.width : ℚ) - 1 < p then -v else v) npx vx
  let nvy := List.zipWith
    (fun p v => if p < 0 ∨ (b.height : ℚ) - 1 < p then -v else v) npy vy
  (npx.map (fun p => min (max p 0) ((b.width : ℚ) - 1)),
   npy.map (fun p => min (max p 0) ((b.height : ℚ) - 1)),
   nvx, nvy)

lemma clip_eq_reflect_fst (s : ℤ) (p v : ℚ) (hs : 1 ≤ s) :
    min (max p 0) ((s : ℚ) - 1) = (reflectAxis s p v).1 := by
  have hs' : (1 : ℚ) ≤ (s : ℚ) := by exact_mod_cast hs
  unfold reflectAxis
  split_ifs with h1 h2
  · rw [max_eq_right h1.le, min_eq_left (by linarith)]
  · rw [max_eq_left (not_lt.mp h1), min_eq_right h2.le]
  · rw [max_eq_left (not_lt.mp h1), min_eq_left (not_lt.mp h2)]

lemma mask_eq_reflect_snd (s : ℤ) (p v : ℚ) :
    (if p < 0 ∨ (s : ℚ) - 1 < p then -v else v) = (reflectAxis s p v).2 := by
  unfold reflectAxis
  by_cases h1 : p < 0
  · simp [h1]
  · by_cases h2 : (s : ℚ) - 1 < p <;> simp [h1, h2]

lemma vec_clip_eq (s : ℤ) (hs : 1 ≤ s) (f g : Particle → ℚ)
    (ps : List Particle) :
    (List.zipWith (· + ·) (ps.map f) (ps.map g)).map
        (fun p => min (max p 0) ((s : ℚ) - 1)) =
      ps.map fun p => (reflectAxis s (f p + g p) (g p)).1 := by
  induction ps with
  | nil => rfl
  | cons q qs ih =>
    simp only [List.map_cons, List.zipWith_cons_cons]
    rw [ih, clip_eq_reflect_fst s (f q + g q) (g q) hs]

lemma vec_mask_eq (s : ℤ) (f g : Particle → ℚ) (ps : List Particle) :
    List.zipWith (fun p v => if p < 0 ∨ (s : ℚ) - 1 < p then -v else v)
        (List.zipWith (· + ·) (ps.map f) (ps.map g)) (ps.map g) =
      ps.map fun p => (reflectAxis s (f p + g p) (g p)).2 := by
  induction ps with
  | nil => rfl
  | cons q qs ih =>
    simp only [List.map_cons, List.zipWith_cons_cons]
    rw [ih, mask_eq_reflect_snd s (f q + g q) (g q)]

/-- C8: the two source variants are equivalent — one frame of the
vectorized update of `sample.py` over the position/velocity columns of a
population equals the column projections of one frame of the
per-particle update of `sample_readable.py`. -/
theorem C8_variants_equivalent (b : Bounds) (ps : List Particle)
    (hw : 1 ≤ b.width) (hh : 1 ≤ b.height) :
    vecFrame b (ps.map fun p => p.position.x) (ps.map fun p => p.position.y)
        (ps.map fun p => p.velocity.x) (ps.map fun p => p.velocity.y) =
      (ps.map fun p => (p.step b).position.x,
       ps.map fun p => (p.step b).position.y,
       ps.map fun p => (p.step b).velocity.x,
       ps.map fun p => (p.step b).velocity.y) := by
  simp only [vecFrame]
  rw [vec_clip_eq b.width hw (fun p => p.position.x) (fun p => p.velocity.x),
    vec_clip_eq b.height hh (fun p => p.position.y) (fun p => p.velocity.y),
    vec_mask_eq b.width (fun p => p.position.x) (fun p => p.velocity.x),
    vec_mask_eq b.height (fun p => p.position.y) (fun p => p.velocity.y)]
  simp only [step_position_x, step_position_y, step_velocity_x, step_velocity_y]

/-- Witness for C8: a single particle at `(959.5, -1)` with velocity
`(2, -2)` under bounds `(960, 540)` — it overshoots on x and undershoots
on y, exercising both reflections. -/
theorem C8_variants_equivalent_witness :
    vecFrame ⟨960, 540⟩
        ([(⟨⟨1919/2, -1⟩, ⟨2, -2⟩, ⟨7, 8, 9⟩⟩ : Particle)].map fun p => p.position.x)
        ([(⟨⟨1919/2, -1⟩, ⟨2, -2⟩, ⟨7, 8, 9⟩⟩ : Particle)].map fun p => p.position.y)
        ([(⟨⟨1919/2, -1⟩, ⟨2, -2⟩, ⟨7, 8, 9⟩⟩ : Particle)].map fun p => p.velocity.x)
        ([(⟨⟨1919/2, -1⟩, ⟨2, -2⟩, ⟨7, 8, 9⟩⟩ : Particle)].map fun p => p.velocity.y) =
      ([(⟨⟨1919/2, -1⟩, ⟨2, -2⟩, ⟨7, 8, 9⟩⟩ : Particle)].map fun p =>
         (p.step ⟨960, 540⟩).position.x,
       [(⟨⟨1919/2, -1⟩, ⟨2, -2⟩, ⟨7, 8, 9⟩⟩ : Particle)].map fun p =>
         (p.step ⟨960, 540⟩).position.y,
       [(⟨⟨1919/2, -1⟩, ⟨2, -2⟩, ⟨7, 8, 9⟩⟩ : Particle)].map fun p =>
         (p.step ⟨960, 540⟩).velocity.x,
       [(⟨⟨1919/2, -1⟩, ⟨2, -2⟩, ⟨7, 8, 9⟩⟩ : Particle)].map fun p =>
         (p.step ⟨960, 540⟩).velocity.y) :=
  C8_variants_equivalent ⟨960, 540⟩ [⟨⟨1919/2, -1⟩, ⟨2, -2⟩, ⟨7, 8, 9⟩⟩]
    (by decide) (by decide)
